import Mathlib

/-!
Verification of the INPI client's financial-data extraction engine
(`src/inpi/financial_extractor.py`) and of the SIREN validator
(`src/utils/validators.py`), as a shallow embedding in Lean.

JSON values handled by the extractor are modelled by `Inpi.JValue`;
Python behaviours relevant to the code (dict/list indexing, `for`
iteration, `int(...)` conversion, `str.isdigit`) are modelled by the
`py*` helpers below, with the exceptions each `try` block catches
collapsed to `none` and the one uncaught exception class
(`AttributeError`) made explicit in the result type.
-/

namespace Inpi

/-- JSON-like values as delivered by the INPI API and traversed by
`financial_extractor.py`. Numbers are integers: the liasse cells the
extractor reads are string-encoded integers. -/
inductive JValue where
  | null
  | bool (b : Bool)
  | int (n : Int)
  | str (s : String)
  | list (xs : List JValue)
  | dict (entries : List (String × JValue))

/-- The one exception class that escapes the `try` blocks of
`FinancialDataExtractor`: `AttributeError` (raised by `page.get` or
`liasse.get` on a non-dict receiver) appears in no `except` list there. -/
inductive PyErr where
  | attributeError
  deriving DecidableEq

/-- Result of an extractor call: either an uncaught exception or the
Python return value `Optional[int]`. -/
abbrev PyResult := Except PyErr (Option Int)

instance {ε α : Type} [DecidableEq ε] [DecidableEq α] : DecidableEq (Except ε α)
  | .ok a, .ok b =>
    if h : a = b then .isTrue (congrArg Except.ok h)
    else .isFalse fun hc => h (Except.ok.inj hc)
  | .ok _, .error _ => .isFalse fun hc => Except.noConfusion hc
  | .error _, .ok _ => .isFalse fun hc => Except.noConfusion hc
  | .error e, .error f =>
    if h : e = f then .isTrue (congrArg Except.error h)
    else .isFalse fun hc => h (Except.error.inj hc)

/-- `iter(v)` as consumed by a `for` loop: lists yield their elements,
strings their characters (as 1-character strings), dicts their keys;
`None`, booleans and integers are not iterable, which raises `TypeError`
(`none` here). -/
def pyIterList : JValue → Option (List JValue)
  | .list xs => some xs
  | .str s => some (s.toList.map fun c => .str (String.mk [c]))
  | .dict es => some (es.map fun kv => .str kv.1)
  | _ => none

/-- `liasse.get("code") == code` where `code` is a Python `str`:
comparing a string with a value of another type is `False`, never an
error. -/
def codeMatches (v : JValue) (code : String) : Bool :=
  match v with
  | .str s => s == code
  | _ => false

/-- Characters stripped by `int(...)` around a numeric string. -/
def isPySpace (c : Char) : Bool :=
  c == ' ' || c == '\t' || c == '\n' || c == '\r' || c == '\x0b' || c == '\x0c'

/-- `int(s)` on a string: surrounding whitespace is stripped, an optional
sign precedes a nonempty run of decimal digits; anything else raises
`ValueError`. Only ASCII numeric forms are modelled; the liasse cells of
the documents considered here are ASCII-encoded integers. -/
def parsePyInt (s : String) : Option Int :=
  let t := ((s.toList.dropWhile isPySpace).reverse.dropWhile isPySpace).reverse
  let core : Bool × List Char :=
    match t with
    | '-' :: rest => (true, rest)
    | '+' :: rest => (false, rest)
    | _ => (false, t)
  if core.2.isEmpty then none
  else if core.2.all Char.isDigit then
    let n : Nat := core.2.foldl (fun acc c => acc * 10 + (c.toNat - 48)) 0
    some (if core.1 then -(n : Int) else (n : Int))
  else none

/-- `int(x)` applied to a liasse cell: ints pass through, booleans become
0 or 1, strings are parsed; `None`, lists and dicts raise `TypeError` and
unparseable strings `ValueError` — both caught by `extract_from_pages`,
hence collapsed to `none`. -/
def pyToInt : JValue → Option Int
  | .int n => some n
  | .bool b => some (if b then 1 else 0)
  | .str s => parsePyInt s
  | _ => none

/-- State of the generator driven by `next` inside `extract_from_pages`:
`ok none` means exhausted so far (keep scanning; `StopIteration` at the
end), `ok (some r)` means the scan stopped with Python result `r` (a
found value, or `None` from a caught exception), `error` is an uncaught
`AttributeError`. -/
abbrev ScanRes := Except PyErr (Option (Option Int))

/-- Scan the liasses of one page: the first liasse whose `"code"` entry
equals `code` stops the generator, and its cell at `field` goes through
`int(...)` (a missing key is a caught `KeyError`); a non-dict liasse
raises `AttributeError` at `liasse.get`. -/
def scanLiasses (field code : String) : List JValue → ScanRes
  | [] => .ok none
  | l :: ls =>
    match l with
    | .dict les =>
      if codeMatches ((les.lookup "code").getD .null) code then
        .ok (some ((les.lookup field).bind pyToInt))
      else scanLiasses field code ls
    | _ => .error .attributeError

/-- Scan the pages in order: a non-dict page raises `AttributeError` at
`page.get`; a `liasses` value that is not iterable raises `TypeError`,
which `extract_from_pages` catches, so the whole call returns `None`. -/
def scanPages (field code : String) : List JValue → ScanRes
  | [] => .ok none
  | p :: ps =>
    match p with
    | .dict es =>
      match pyIterList ((es.lookup "liasses").getD (.list [])) with
      | none => .ok (some none)
      | some ls =>
        match scanLiasses field code ls with
        | .ok none => scanPages field code ps
        | r => r
    | _ => .error .attributeError

/-- `FinancialDataExtractor.extract_from_pages(pages, field, code)`:
`next(int(liasse[field]) for page in pages for liasse in
page.get("liasses", []) if liasse.get("code") == code)` under
`except (StopIteration, ValueError, KeyError, TypeError): return None`;
`AttributeError` is absent from that list and escapes. -/
def extract_from_pages (pages : JValue) (field code : String) : PyResult :=
  match pyIterList pages with
  | none => .ok none
  | some ps =>
    match scanPages field code ps with
    | .ok none => .ok none
    | .ok (some r) => .ok r
    | .error e => .error e

/-- A `{"field": ..., "code": ...}` mapping entry of the code table. -/
structure Mapping where
  field : String
  code : String
  deriving DecidableEq

/-- `FinancialDataExtractor.extract_with_fallback(pages, mappings)`:
tries the mappings in order, returns the first result that
`is not None`; exceptions propagate (there is no `try` here). -/
def extract_with_fallback (pages : JValue) : List Mapping → PyResult
  | [] => .ok none
  | m :: rest =>
    match extract_from_pages pages m.field m.code with
    | .ok none => extract_with_fallback pages rest
    | r => r

/-- Running total of `extract_sum_from_components`: absent components add
nothing; an uncaught error from a component aborts the loop. -/
def sumComponents (pages : JValue) : List Mapping → Int → Except PyErr Int
  | [], total => .ok total
  | m :: rest, total =>
    match extract_from_pages pages m.field m.code with
    | .ok (some v) => sumComponents pages rest (total + v)
    | .ok none => sumComponents pages rest total
    | .error e => .error e

/-- `FinancialDataExtractor.extract_sum_from_components(pages,
components)`: sums the resolved components (the dict's values in
insertion order) and keeps the total only when strictly positive
(`return total if total > 0 else None`). -/
def extract_sum_from_components (pages : JValue) (components : List Mapping) : PyResult :=
  (sumComponents pages components 0).map fun total =>
    if 0 < total then some total else none

/-- `v[k]` for a string key `k` inside the getters' `try`: dict lookup;
a missing key is `KeyError` and a non-dict receiver `TypeError`, both
caught, hence `none`. -/
def pyIndexStr (v : JValue) (k : String) : Option JValue :=
  match v with
  | .dict es => es.lookup k
  | _ => none

/-- Normalize a Python sequence index against the length: a negative
index counts from the end. -/
def pyNormIdx (i : Int) (n : Nat) : Int := if i < 0 then i + n else i

/-- `v[i]` for an integer index inside the getters' `try`: list and
string indexing with negative indices counting from the end; out of
range is `IndexError`, a (string-keyed) dict gives `KeyError`, other
receivers `TypeError` — all caught, hence `none`. -/
def pyIndexInt (v : JValue) (i : Int) : Option JValue :=
  match v with
  | .list xs =>
    if 0 ≤ pyNormIdx i xs.length ∧ pyNormIdx i xs.length < (xs.length : Int) then
      xs.get? (pyNormIdx i xs.length).toNat
    else none
  | .str s =>
    if 0 ≤ pyNormIdx i s.length ∧ pyNormIdx i s.length < (s.length : Int) then
      (s.toList.get? (pyNormIdx i s.length).toNat).map (fun c => .str (String.mk [c]))
    else none
  | _ => none

/-- The navigation
`bilan_data["bilansSaisis"][position]["bilanSaisi"]["bilan"]["detail"]["pages"]`
shared by every getter; any failure along the path is one of the caught
exceptions, so the getter returns `None`. -/
def navPages (bilan_data : JValue) (position : Int) : Option JValue := do
  let b ← pyIndexStr bilan_data "bilansSaisis"
  let s ← pyIndexInt b position
  let bs ← pyIndexStr s "bilanSaisi"
  let bi ← pyIndexStr bs "bilan"
  let d ← pyIndexStr bi "detail"
  pyIndexStr d "pages"

/-- The six bilan schema variants (`BilanType` of the source). -/
inductive BilanType where
  | TBC | TBS | TBK | TBB | TBAC | TBAS
  deriving DecidableEq

/-- A table entry is either a single mapping or an ordered fallback list
(the getter checks `isinstance(mapping, list)`). -/
inductive MappingSpec where
  | single (m : Mapping)
  | fallback (ms : List Mapping)

namespace FinancialCodeMapping

def CHIFFRE_AFFAIRES : BilanType → Option Mapping
  | .TBC => some ⟨"m3", "FJ"⟩
  | .TBK => some ⟨"m3", "FJ"⟩
  | _ => none

def CHIFFRE_AFFAIRES_N_1 : BilanType → Option Mapping
  | .TBC => some ⟨"m4", "FJ"⟩
  | .TBK => some ⟨"m4", "FJ"⟩
  | _ => none

/-- TBS turnover components; `dict.values()` iterates in insertion
order. -/
def CHIFFRE_AFFAIRES_TBS : List Mapping :=
  [⟨"m1", "209"⟩, ⟨"m1", "215"⟩, ⟨"m1", "217"⟩,
   ⟨"m1", "210"⟩, ⟨"m1", "214"⟩, ⟨"m1", "218"⟩]

def CHIFFRE_AFFAIRES_N_1_TBS : List Mapping :=
  [⟨"m2", "210"⟩, ⟨"m2", "214"⟩, ⟨"m2", "218"⟩]

def CAPITAUX_PROPRES : BilanType → Option Mapping
  | .TBC => some ⟨"m1", "DL"⟩
  | .TBS => some ⟨"m3", "142"⟩
  | .TBK => some ⟨"m1", "DL"⟩
  | _ => none

def CAPITAUX_PROPRES_N_1 : BilanType → Option Mapping
  | .TBC => some ⟨"m2", "DL"⟩
  | .TBS => some ⟨"m4", "142"⟩
  | .TBK => some ⟨"m2", "DL"⟩
  | _ => none

def CAPITAUX_PROPRES_TBB : List Mapping :=
  [⟨"m1", "P3"⟩, ⟨"m1", "P4"⟩, ⟨"m1", "P5"⟩,
   ⟨"m1", "P6"⟩, ⟨"m1", "P7"⟩, ⟨"m1", "P8"⟩]

def CAPITAUX_PROPRES_N_1_TBB : List Mapping :=
  [⟨"m2", "P3"⟩, ⟨"m2", "P4"⟩, ⟨"m2", "P5"⟩,
   ⟨"m2", "P6"⟩, ⟨"m2", "P7"⟩, ⟨"m2", "P8"⟩]

def BENEFICE_PERTE : BilanType → Option MappingSpec
  | .TBK => some (.single ⟨"m1", "R6"⟩)
  | .TBS => some (.fallback [⟨"m1", "310"⟩, ⟨"m3", "136"⟩])
  | .TBC => some (.fallback [⟨"m1", "HN"⟩, ⟨"m1", "DI"⟩])
  | _ => none

def BENEFICE_PERTE_N_1 : BilanType → Option MappingSpec
  | .TBK => some (.single ⟨"m2", "R6"⟩)
  | .TBS => some (.fallback [⟨"m2", "310"⟩, ⟨"m4", "136"⟩])
  | .TBC => some (.fallback [⟨"m2", "HN"⟩, ⟨"m2", "DI"⟩])
  | _ => none

def RESULTAT_EXERCICE_TBB : List Mapping := [⟨"m1", "R3"⟩, ⟨"m1", "P8"⟩]

def RESULTAT_EXERCICE_N_1_TBB : List Mapping := [⟨"m2", "R3"⟩, ⟨"m2", "P8"⟩]

def EFFECTIF : BilanType → Option Mapping
  | .TBS => some ⟨"m1", "376"⟩
  | .TBC => some ⟨"m1", "YP"⟩
  | _ => none

def EFFECTIF_N_1 : BilanType → Option Mapping
  | .TBS => some ⟨"m2", "376"⟩
  | .TBC => some ⟨"m2", "YP"⟩
  | _ => none

end FinancialCodeMapping

/-- `FinancialDataExtractor.get_capitaux_propres`. -/
def get_capitaux_propres (bilan_data : JValue) (position : Int)
    (bilan_type : BilanType) (n_minus_1 : Bool) : PyResult :=
  match navPages bilan_data position with
  | none => .ok none
  | some pages =>
    if bilan_type = .TBB then
      extract_sum_from_components pages
        (if n_minus_1 then FinancialCodeMapping.CAPITAUX_PROPRES_N_1_TBB
         else FinancialCodeMapping.CAPITAUX_PROPRES_TBB)
    else
      match (if n_minus_1 then FinancialCodeMapping.CAPITAUX_PROPRES_N_1
             else FinancialCodeMapping.CAPITAUX_PROPRES) bilan_type with
      | some m => extract_from_pages pages m.field m.code
      | none => .ok none

/-- `FinancialDataExtractor.get_benefice_perte`. -/
def get_benefice_perte (bilan_data : JValue) (position : Int)
    (bilan_type : BilanType) (n_minus_1 : Bool) : PyResult :=
  match navPages bilan_data position with
  | none => .ok none
  | some pages =>
    match (if n_minus_1 then FinancialCodeMapping.BENEFICE_PERTE_N_1
           else FinancialCodeMapping.BENEFICE_PERTE) bilan_type with
    | some (.fallback ms) => extract_with_fallback pages ms
    | some (.single m) => extract_from_pages pages m.field m.code
    | none => .ok none

/-- `FinancialDataExtractor.get_resultat_exercice_tbb`. -/
def get_resultat_exercice_tbb (bilan_data : JValue) (position : Int)
    (n_minus_1 : Bool) : PyResult :=
  match navPages bilan_data position with
  | none => .ok none
  | some pages =>
    extract_with_fallback pages
      (if n_minus_1 then FinancialCodeMapping.RESULTAT_EXERCICE_N_1_TBB
       else FinancialCodeMapping.RESULTAT_EXERCICE_TBB)

/-- `FinancialDataExtractor.get_chiffre_affaires`. -/
def get_chiffre_affaires (bilan_data : JValue) (position : Int)
    (bilan_type : BilanType) (n_minus_1 : Bool) : PyResult :=
  match navPages bilan_data position with
  | none => .ok none
  | some pages =>
    if bilan_type = .TBS then
      extract_sum_from_components pages
        (if n_minus_1 then FinancialCodeMapping.CHIFFRE_AFFAIRES_N_1_TBS
         else FinancialCodeMapping.CHIFFRE_AFFAIRES_TBS)
    else
      match (if n_minus_1 then FinancialCodeMapping.CHIFFRE_AFFAIRES_N_1
             else FinancialCodeMapping.CHIFFRE_AFFAIRES) bilan_type with
      | some m => extract_from_pages pages m.field m.code
      | none => .ok none

/-- `FinancialDataExtractor.get_effectif`. -/
def get_effectif (bilan_data : JValue) (position : Int)
    (bilan_type : BilanType) (n_minus_1 : Bool) : PyResult :=
  match navPages bilan_data position with
  | none => .ok none
  | some pages =>
    match (if n_minus_1 then FinancialCodeMapping.EFFECTIF_N_1
           else FinancialCodeMapping.EFFECTIF) bilan_type with
    | some m => extract_from_pages pages m.field m.code
    | none => .ok none

/-- Is the value a dict. -/
def isDict : JValue → Bool
  | .dict _ => true
  | _ => false

/-- A page shape on which the scan of `extract_from_pages` cannot raise:
the page is a dict and, when its `liasses` value (default `[]`) is
iterable, the iteration yields only dicts. A non-iterable `liasses`
value is allowed here: it only raises a caught `TypeError`. -/
def wfPage : JValue → Bool
  | .dict es =>
    match pyIterList ((es.lookup "liasses").getD (.list [])) with
    | none => true
    | some ls => ls.all isDict
  | _ => false

/-- A pages value on which `extract_from_pages` cannot raise. -/
def wfPages (pages : JValue) : Bool :=
  match pyIterList pages with
  | none => true
  | some ps => ps.all wfPage

/-- A page shape on which the scan neither raises nor stops early with a
caught exception: a dict whose `liasses` value iterates and yields only
dicts. -/
def strictPage : JValue → Bool
  | .dict es =>
    match pyIterList ((es.lookup "liasses").getD (.list [])) with
    | none => false
    | some ls => ls.all isDict
  | _ => false

/-- The liasse is a dict whose `"code"` entry equals `code`. -/
def liasseMatches (code : String) : JValue → Bool
  | .dict les => codeMatches ((les.lookup "code").getD .null) code
  | _ => false

/-- The liasses walked while scanning one page (empty when the page is
not a dict or its `liasses` value does not iterate). -/
def pageLiasses : JValue → List JValue
  | .dict es => (pyIterList ((es.lookup "liasses").getD (.list []))).getD []
  | _ => []

/-- The page contains a liasse whose `"code"` entry equals `code`. -/
def pageMatches (code : String) (p : JValue) : Bool :=
  (pageLiasses p).any (liasseMatches code)

/-- The call returned without an uncaught exception. -/
def isOk : PyResult → Bool
  | .ok _ => true
  | .error _ => false

/-- The value one component contributes to the component sum: its
extracted value, an absent component counting as zero. -/
def componentValue (pages : JValue) (m : Mapping) : Int :=
  match extract_from_pages pages m.field m.code with
  | .ok (some v) => v
  | _ => 0

/-- Python `str.isdigit` on one character: true exactly for characters
with Unicode property `Numeric_Type=Decimal` or `Numeric_Type=Digit`.
Modelled here on the fragment relevant to this development: the ASCII
digits, the superscript digits one to three, and the Arabic-Indic and
Devanagari decimal digit blocks; over characters outside this fragment
the predicate is conservatively false. -/
def pyIsDigitChar (c : Char) : Bool :=
  c.isDigit || c == '¹' || c == '²' || c == '³' ||
  (0x660 ≤ c.toNat && c.toNat ≤ 0x669) || (0x966 ≤ c.toNat && c.toNat ≤ 0x96F)

/-- `siren.replace(" ", "").replace("-", "").replace(".", "")`. -/
def stripSirenSeparators (s : String) : String :=
  String.mk (s.toList.filter fun c => !(c == ' ' || c == '-' || c == '.'))

/-- The two failure branches of `validate_siren` (both raise
`InvalidSirenError`; the offending length is kept for the message). -/
inductive SirenFailure where
  | wrongLength (n : Nat)
  | nonDigit
  deriving DecidableEq

/-- `SirenSiretValidator.validate_siren` on a string input: strips
spaces, hyphens and periods, then requires length exactly 9 and
`str.isdigit`; otherwise it raises `InvalidSirenError`, modelled as
`Except.error`. -/
def validate_siren (siren : String) : Except SirenFailure String :=
  if (stripSirenSeparators siren).length ≠ 9 then
    .error (.wrongLength (stripSirenSeparators siren).length)
  else if !((stripSirenSeparators siren).toList.all pyIsDigitChar) then
    .error .nonDigit
  else .ok (stripSirenSeparators siren)

/-- ASCII decimal digit — the reading of "digit" in the specification
sentence under scrutiny, to be compared with the source's
`str.isdigit`. -/
def asciiDigit (c : Char) : Bool := c.isDigit

/-- A pages value holding one page with the given liasses. -/
def mkPages (liasses : List JValue) : JValue :=
  .list [.dict [("liasses", .list liasses)]]

/-- The `bilansSaisis` array of a document holding one filing whose
single page has the given liasses. -/
def mkStatements (liasses : List JValue) : List JValue :=
  [.dict [("bilanSaisi", .dict [("bilan",
    .dict [("detail", .dict [("pages", mkPages liasses)])])])]]

/-- A document holding one filing whose single page has the given
liasses. -/
def mkDoc (liasses : List JValue) : JValue :=
  .dict [("bilansSaisis", .list (mkStatements liasses))]

/-- The liasse line of end-to-end scenario 1 of the specification. -/
def equityLiasses : List JValue :=
  [.dict [("code", .str "DL"), ("m1", .str "50000"), ("m2", .str "48000")]]

/-- The document of end-to-end scenario 1 of the specification. -/
def docEquity : JValue := mkDoc equityLiasses

/-- The liasse lines of end-to-end scenario 2 of the specification. -/
def turnoverLiasses : List JValue :=
  [.dict [("code", .str "210"), ("m1", .str "1000")],
   .dict [("code", .str "214"), ("m1", .str "2000")],
   .dict [("code", .str "218"), ("m1", .str "0")]]

/-- The document of end-to-end scenario 2 of the specification. -/
def docTurnover : JValue := mkDoc turnoverLiasses

/-- A document whose pages list holds a non-dict page. -/
def docBadPage : JValue :=
  .dict [("bilansSaisis", .list [.dict [("bilanSaisi", .dict [("bilan",
    .dict [("detail", .dict [("pages", .list [.int 0])])])])]])]

/-- A page whose `liasses` value is not iterable: scanning it raises a
`TypeError` that `extract_from_pages` catches, ending the whole call
with `None`. -/
def pageBadLiasses : JValue := .dict [("liasses", .int 0)]

/-- A page holding the line `{code: "FJ", m3: "7"}`. -/
def pageFJ : JValue :=
  .dict [("liasses", .list [.dict [("code", .str "FJ"), ("m3", .str "7")]])]

/-- A well-shaped page with no line matching code "FJ". -/
def pageOther : JValue :=
  .dict [("liasses", .list [.dict [("code", .str "ZZ"), ("m3", .str "9")]])]

/-! ### Totality of the scan on well-shaped input -/

theorem scanLiasses_ok_of_all_dict (field code : String) :
    ∀ ls : List JValue, ls.all isDict = true → ∃ r, scanLiasses field code ls = .ok r
  | [], _ => ⟨none, rfl⟩
  | .dict les :: ls, h => by
    simp only [List.all_cons, Bool.and_eq_true] at h
    cases hc : codeMatches ((les.lookup "code").getD .null) code with
    | false =>
      have ih := scanLiasses_ok_of_all_dict field code ls h.2
      simpa [scanLiasses, hc] using ih
    | true =>
      exact ⟨some ((les.lookup field).bind pyToInt), by simp [scanLiasses, hc]⟩
  | .null :: ls, h => by simp [List.all_cons, isDict] at h
  | .bool b :: ls, h => by simp [List.all_cons, isDict] at h
  | .int n :: ls, h => by simp [List.all_cons, isDict] at h
  | .str s :: ls, h => by simp [List.all_cons, isDict] at h
  | .list xs :: ls, h => by simp [List.all_cons, isDict] at h

theorem scanPages_ok_of_all_wf (field code : String) :
    ∀ ps : List JValue, ps.all wfPage = true → ∃ r, scanPages field code ps = .ok r
  | [], _ => ⟨none, rfl⟩
  | .dict es :: ps, h => by
    simp only [List.all_cons, Bool.and_eq_true] at h
    cases hiter : pyIterList ((es.lookup "liasses").getD (.list [])) with
    | none => exact ⟨some none, by simp [scanPages, hiter]⟩
    | some ls =>
      have hld : ls.all isDict = true := by
        have hw := h.1
        simp only [wfPage, hiter] at hw
        exact hw
      obtain ⟨r, hr⟩ := scanLiasses_ok_of_all_dict field code ls hld
      cases r with
      | none =>
        have ih := scanPages_ok_of_all_wf field code ps h.2
        simpa [scanPages, hiter, hr] using ih
      | some x => exact ⟨some x, by simp [scanPages, hiter, hr]⟩
  | .null :: ps, h => by simp [List.all_cons, wfPage] at h
  | .bool b :: ps, h => by simp [List.all_cons, wfPage] at h
  | .int n :: ps, h => by simp [List.all_cons, wfPage] at h
  | .str s :: ps, h => by simp [List.all_cons, wfPage] at h
  | .list xs :: ps, h => by simp [List.all_cons, wfPage] at h

theorem extract_from_pages_ok_of_wf (pages : JValue) (field code : String)
    (h : wfPages pages = true) : ∃ r, extract_from_pages pages field code = .ok r := by
  cases hiter : pyIterList pages with
  | none => exact ⟨none, by simp [extract_from_pages, hiter]⟩
  | some ps =>
    have hall : ps.all wfPage = true := by
      unfold wfPages at h
      rw [hiter] at h
      exact h
    obtain ⟨r, hr⟩ := scanPages_ok_of_all_wf field code ps hall
    cases r with
    | none => exact ⟨none, by simp [extract_from_pages, hiter, hr]⟩
    | some x => exact ⟨x, by simp [extract_from_pages, hiter, hr]⟩

theorem extract_with_fallback_ok_of_wf (pages : JValue) (h : wfPages pages = true) :
    ∀ ms : List Mapping, ∃ r, extract_with_fallback pages ms = .ok r
  | [] => ⟨none, rfl⟩
  | m :: rest => by
    obtain ⟨r, hr⟩ := extract_from_pages_ok_of_wf pages m.field m.code h
    cases r with
    | none =>
      have ih := extract_with_fallback_ok_of_wf pages h rest
      simpa [extract_with_fallback, hr] using ih
    | some v => exact ⟨some v, by simp [extract_with_fallback, hr]⟩

theorem sumComponents_ok_of_wf (pages : JValue) (h : wfPages pages = true) :
    ∀ (comps : List Mapping) (t : Int), ∃ v, sumComponents pages comps t = .ok v
  | [], t => ⟨t, rfl⟩
  | m :: rest, t => by
    obtain ⟨r, hr⟩ := extract_from_pages_ok_of_wf pages m.field m.code h
    cases r with
    | none =>
      have ih := sumComponents_ok_of_wf pages h rest t
      simpa [sumComponents, hr] using ih
    | some v =>
      have ih := sumComponents_ok_of_wf pages h rest (t + v)
      simpa [sumComponents, hr] using ih

theorem extract_sum_ok_of_wf (pages : JValue) (h : wfPages pages = true)
    (comps : List Mapping) : ∃ r, extract_sum_from_components pages comps = .ok r := by
  obtain ⟨v, hv⟩ := sumComponents_ok_of_wf pages h comps 0
  refine ⟨if 0 < v then some v else none, ?_⟩
  simp [extract_sum_from_components, hv, Except.map]

theorem get_capitaux_propres_ok_of_wf (bilan_data : JValue) (position : Int)
    (bt : BilanType) (nm1 : Bool)
    (hd : ∀ pv, navPages bilan_data position = some pv → wfPages pv = true) :
    ∃ r, get_capitaux_propres bilan_data position bt nm1 = .ok r := by
  cases hnav : navPages bilan_data position with
  | none => exact ⟨none, by simp [get_capitaux_propres, hnav]⟩
  | some pv =>
    have hwf := hd pv hnav
    simp only [get_capitaux_propres, hnav]
    by_cases hb : bt = BilanType.TBB
    · rw [if_pos hb]
      exact extract_sum_ok_of_wf pv hwf _
    · rw [if_neg hb]
      cases hmap : (if nm1 then FinancialCodeMapping.CAPITAUX_PROPRES_N_1
                    else FinancialCodeMapping.CAPITAUX_PROPRES) bt with
      | none => exact ⟨none, rfl⟩
      | some m => exact extract_from_pages_ok_of_wf pv m.field m.code hwf

theorem get_benefice_perte_ok_of_wf (bilan_data : JValue) (position : Int)
    (bt : BilanType) (nm1 : Bool)
    (hd : ∀ pv, navPages bilan_data position = some pv → wfPages pv = true) :
    ∃ r, get_benefice_perte bilan_data position bt nm1 = .ok r := by
  cases hnav : navPages bilan_data position with
  | none => exact ⟨none, by simp [get_benefice_perte, hnav]⟩
  | some pv =>
    have hwf := hd pv hnav
    simp only [get_benefice_perte, hnav]
    cases hmap : (if nm1 then FinancialCodeMapping.BENEFICE_PERTE_N_1
                  else FinancialCodeMapping.BENEFICE_PERTE) bt with
    | none => exact ⟨none, rfl⟩
    | some spec =>
      cases spec with
      | single m => exact extract_from_pages_ok_of_wf pv m.field m.code hwf
      | fallback ms => exact extract_with_fallback_ok_of_wf pv hwf ms

theorem get_resultat_exercice_tbb_ok_of_wf (bilan_data : JValue) (position : Int)
    (nm1 : Bool)
    (hd : ∀ pv, navPages bilan_data position = some pv → wfPages pv = true) :
    ∃ r, get_resultat_exercice_tbb bilan_data position nm1 = .ok r := by
  cases hnav : navPages bilan_data position with
  | none => exact ⟨none, by simp [get_resultat_exercice_tbb, hnav]⟩
  | some pv =>
    have hwf := hd pv hnav
    simp only [get_resultat_exercice_tbb, hnav]
    exact extract_with_fallback_ok_of_wf pv hwf _

theorem get_chiffre_affaires_ok_of_wf (bilan_data : JValue) (position : Int)
    (bt : BilanType) (nm1 : Bool)
    (hd : ∀ pv, navPages bilan_data position = some pv → wfPages pv = true) :
    ∃ r, get_chiffre_affaires bilan_data position bt nm1 = .ok r := by
  cases hnav : navPages bilan_data position with
  | none => exact ⟨none, by simp [get_chiffre_affaires, hnav]⟩
  | some pv =>
    have hwf := hd pv hnav
    simp only [get_chiffre_affaires, hnav]
    by_cases hb : bt = BilanType.TBS
    · rw [if_pos hb]
      exact extract_sum_ok_of_wf pv hwf _
    · rw [if_neg hb]
      cases hmap : (if nm1 then FinancialCodeMapping.CHIFFRE_AFFAIRES_N_1
                    else FinancialCodeMapping.CHIFFRE_AFFAIRES) bt with
      | none => exact ⟨none, rfl⟩
      | some m => exact extract_from_pages_ok_of_wf pv m.field m.code hwf

theorem get_effectif_ok_of_wf (bilan_data : JValue) (position : Int)
    (bt : BilanType) (nm1 : Bool)
    (hd : ∀ pv, navPages bilan_data position = some pv → wfPages pv = true) :
    ∃ r, get_effectif bilan_data position bt nm1 = .ok r := by
  cases hnav : navPages bilan_data position with
  | none => exact ⟨none, by simp [get_effectif, hnav]⟩
  | some pv =>
    have hwf := hd pv hnav
    simp only [get_effectif, hnav]
    cases hmap : (if nm1 then FinancialCodeMapping.EFFECTIF_N_1
                  else FinancialCodeMapping.EFFECTIF) bt with
    | none => exact ⟨none, rfl⟩
    | some m => exact extract_from_pages_ok_of_wf pv m.field m.code hwf

/-! ### Claim C1 -/

/-- **C1** (amended): on documents whose pages are dicts and whose
iterable `liasses` values yield only dicts, the extraction operations
never raise: for every such pages value, field, code, document,
position, bilan type and year flag, `extract_from_pages` and every
metric getter return (`Except.ok`), every miss condition collapsing to
the absent result. Over arbitrary JSON the claim is false: a non-dict
element inside the pages list (or inside an iterable `liasses` value)
raises an uncaught `AttributeError` — see the counterexample. -/
theorem extraction_total_on_wf_input (pages bilan_data : JValue)
    (position : Int) (bt : BilanType) (nm1 : Bool) (field code : String)
    (hp : wfPages pages = true)
    (hd : ∀ pv, navPages bilan_data position = some pv → wfPages pv = true) :
    (∃ r, extract_from_pages pages field code = .ok r) ∧
    (∃ r, get_capitaux_propres bilan_data position bt nm1 = .ok r) ∧
    (∃ r, get_benefice_perte bilan_data position bt nm1 = .ok r) ∧
    (∃ r, get_resultat_exercice_tbb bilan_data position nm1 = .ok r) ∧
    (∃ r, get_chiffre_affaires bilan_data position bt nm1 = .ok r) ∧
    (∃ r, get_effectif bilan_data position bt nm1 = .ok r) :=
  ⟨extract_from_pages_ok_of_wf pages field code hp,
   get_capitaux_propres_ok_of_wf bilan_data position bt nm1 hd,
   get_benefice_perte_ok_of_wf bilan_data position bt nm1 hd,
   get_resultat_exercice_tbb_ok_of_wf bilan_data position nm1 hd,
   get_chiffre_affaires_ok_of_wf bilan_data position bt nm1 hd,
   get_effectif_ok_of_wf bilan_data position bt nm1 hd⟩

/-- **C1** counterexample: on a document whose pages list holds the
non-dict page `0`, `extract_from_pages` and `get_capitaux_propres` end
in an uncaught `AttributeError` instead of the absent result the claim
promises. -/
theorem extraction_raises_on_nondict_page :
    extract_from_pages (.list [.int 0]) "m1" "DL" = .error .attributeError ∧
    get_capitaux_propres docBadPage 0 .TBC false = .error .attributeError :=
  ⟨rfl, rfl⟩

/-! ### The component sum (claims C2 and C9) -/

theorem sumComponents_eq (pages : JValue) :
    ∀ comps : List Mapping,
      (∀ m ∈ comps, isOk (extract_from_pages pages m.field m.code) = true) →
      ∀ t : Int,
        sumComponents pages comps t = .ok (t + (comps.map (componentValue pages)).sum)
  | [], _, t => by simp [sumComponents]
  | m :: rest, h, t => by
    have hm := h m (List.mem_cons_self _ _)
    have hrest : ∀ m1 ∈ rest, isOk (extract_from_pages pages m1.field m1.code) = true :=
      fun m1 hm1 => h m1 (List.mem_cons_of_mem _ hm1)
    cases hx : extract_from_pages pages m.field m.code with
    | error e => rw [hx] at hm; simp [isOk] at hm
    | ok r =>
      cases r with
      | some v =>
        have hcv : componentValue pages m = v := by simp [componentValue, hx]
        have ih := sumComponents_eq pages rest hrest (t + v)
        simp only [sumComponents, hx]
        rw [ih, List.map_cons, List.sum_cons, hcv, add_assoc]
      | none =>
        have hcv : componentValue pages m = 0 := by simp [componentValue, hx]
        have ih := sumComponents_eq pages rest hrest t
        simp only [sumComponents, hx]
        rw [ih, List.map_cons, List.sum_cons, hcv, zero_add]

/-! ### Claim C2 -/

/-- **C2**: `extract_sum_from_components` treats each absent component
as contributing zero; whenever no component scan raises, it returns the
sum of the resolved component values if that sum is strictly positive,
and the absent result when the sum is not — in particular when the sum
is exactly zero, e.g. when all components are absent. -/
theorem extract_sum_from_components_spec (pages : JValue) (comps : List Mapping)
    (hok : ∀ m ∈ comps, isOk (extract_from_pages pages m.field m.code) = true) :
    extract_sum_from_components pages comps =
      .ok (if 0 < (comps.map (componentValue pages)).sum
           then some ((comps.map (componentValue pages)).sum) else none) := by
  unfold extract_sum_from_components
  rw [sumComponents_eq pages comps hok 0]
  simp [Except.map]

/-- Witness for C2 at the page of end-to-end scenario 2. -/
theorem extract_sum_from_components_spec_witness :
    extract_sum_from_components (mkPages turnoverLiasses)
        FinancialCodeMapping.CHIFFRE_AFFAIRES_TBS =
      .ok (if 0 < ((FinancialCodeMapping.CHIFFRE_AFFAIRES_TBS.map
              (componentValue (mkPages turnoverLiasses))).sum)
           then some ((FinancialCodeMapping.CHIFFRE_AFFAIRES_TBS.map
              (componentValue (mkPages turnoverLiasses))).sum)
           else none) :=
  extract_sum_from_components_spec (mkPages turnoverLiasses)
    FinancialCodeMapping.CHIFFRE_AFFAIRES_TBS (by decide)

/-! ### Claim C9 -/

/-- **C9**: when the resolved components sum to a strictly negative
total, `extract_sum_from_components` returns the absent result exactly
as for a zero total: the `total > 0` guard collapses every non-positive
total to `None`, so a genuinely negative aggregate is unreportable. -/
theorem extract_sum_negative_total_absent (pages : JValue) (comps : List Mapping)
    (hok : ∀ m ∈ comps, isOk (extract_from_pages pages m.field m.code) = true)
    (hneg : (comps.map (componentValue pages)).sum < 0) :
    extract_sum_from_components pages comps = .ok none := by
  unfold extract_sum_from_components
  rw [sumComponents_eq pages comps hok 0]
  simp only [Except.map, zero_add]
  rw [if_neg (by omega)]

/-- Witness for C9: a single component resolving to -5 yields the
absent result. -/
theorem extract_sum_negative_total_absent_witness :
    extract_sum_from_components
      (mkPages [.dict [("code", .str "PX"), ("m1", .str "-5")]])
      [⟨"m1", "PX"⟩] = .ok none :=
  extract_sum_negative_total_absent _ _ (by decide) (by decide)

/-! ### Claim C3 -/

theorem extract_with_fallback_append_of_absent (pages : JValue) :
    ∀ ms1 : List Mapping,
      (∀ m1 ∈ ms1, extract_from_pages pages m1.field m1.code = .ok none) →
      ∀ rest : List Mapping,
        extract_with_fallback pages (ms1 ++ rest) = extract_with_fallback pages rest
  | [], _, rest => by simp
  | m :: ms1, h, rest => by
    have hm := h m (List.mem_cons_self _ _)
    have ih := extract_with_fallback_append_of_absent pages ms1
      (fun m1 hm1 => h m1 (List.mem_cons_of_mem _ hm1)) rest
    simp only [List.cons_append, extract_with_fallback, hm]
    exact ih

theorem extract_with_fallback_eq_none_iff (pages : JValue) :
    ∀ ms : List Mapping,
      (extract_with_fallback pages ms = .ok none ↔
        ∀ m ∈ ms, extract_from_pages pages m.field m.code = .ok none)
  | [] => by simp [extract_with_fallback]
  | m :: ms => by
    have ih := extract_with_fallback_eq_none_iff pages ms
    cases hx : extract_from_pages pages m.field m.code with
    | error e =>
      simp only [extract_with_fallback, hx]
      constructor
      · intro hcon; simp at hcon
      · intro hall
        have h1 := hall m (List.mem_cons_self _ _)
        rw [hx] at h1; simp at h1
    | ok r =>
      cases r with
      | none =>
        simp only [extract_with_fallback, hx]
        rw [ih]
        constructor
        · intro hall m1 hm1
          rcases List.mem_cons.mp hm1 with h1 | h1
          · subst h1; exact hx
          · exact hall m1 h1
        · intro hall m1 hm1
          exact hall m1 (List.mem_cons_of_mem _ hm1)
      | some v =>
        simp only [extract_with_fallback, hx]
        constructor
        · intro hcon; simp at hcon
        · intro hall
          have h1 := hall m (List.mem_cons_self _ _)
          rw [hx] at h1; simp at h1

/-- **C3**: `extract_with_fallback` is a priority order: if every
mapping before `m` resolves to the absent result and `m` resolves to
`v`, the fallback over `ms1 ++ m :: ms2` returns `v` regardless of what
the later mappings `ms2` would resolve to; and it returns the absent
result exactly when every mapping of the list resolves to the absent
result. -/
theorem extract_with_fallback_priority (pages : JValue) (ms1 ms2 : List Mapping)
    (m : Mapping) (v : Int)
    (h1 : ∀ m1 ∈ ms1, extract_from_pages pages m1.field m1.code = .ok none)
    (h2 : extract_from_pages pages m.field m.code = .ok (some v)) :
    extract_with_fallback pages (ms1 ++ m :: ms2) = .ok (some v) ∧
    ∀ ms : List Mapping,
      (extract_with_fallback pages ms = .ok none ↔
        ∀ m1 ∈ ms, extract_from_pages pages m1.field m1.code = .ok none) := by
  constructor
  · rw [extract_with_fallback_append_of_absent pages ms1 h1 (m :: ms2)]
    simp [extract_with_fallback, h2]
  · exact fun ms => extract_with_fallback_eq_none_iff pages ms

/-- Witness for C3, mirroring end-to-end scenario 4 with one more
mapping appended: code "HN" absent, fallback "DI" = 1200 wins over a
later mapping that would also resolve (to 99). -/
theorem extract_with_fallback_priority_witness :
    extract_with_fallback
      (mkPages [.dict [("code", .str "DI"), ("m1", .str "1200")],
                .dict [("code", .str "XX"), ("m1", .str "99")]])
      [⟨"m1", "HN"⟩, ⟨"m1", "DI"⟩, ⟨"m1", "XX"⟩] = .ok (some 1200) :=
  (extract_with_fallback_priority
    (mkPages [.dict [("code", .str "DI"), ("m1", .str "1200")],
              .dict [("code", .str "XX"), ("m1", .str "99")]])
    [⟨"m1", "HN"⟩] [⟨"m1", "XX"⟩] ⟨"m1", "DI"⟩ 1200
    (by decide) (by decide)).1

/-! ### Claim C4 -/

/-- **C4**: end-to-end scenario 1: on a document with one filing whose
page holds the line `{code: "DL", m1: "50000", m2: "48000"}`, the equity
getter for bilan type C at position 0 returns 50000 for the current year
and 48000 for the prior year. -/
theorem get_capitaux_propres_end_to_end :
    get_capitaux_propres docEquity 0 .TBC false = .ok (some 50000) ∧
    get_capitaux_propres docEquity 0 .TBC true = .ok (some 48000) :=
  ⟨rfl, rfl⟩

/-! ### Claim C5 -/

/-- **C5**: end-to-end scenario 2: on a document with one filing of the
simplified schema whose page holds the turnover components 210 = 1000,
214 = 2000 and 218 = 0 at field m1 (the other components absent), the
turnover getter for bilan type S returns their sum 3000. -/
theorem get_chiffre_affaires_tbs_end_to_end :
    get_chiffre_affaires docTurnover 0 .TBS false = .ok (some 3000) := rfl

/-! ### Claim C6 -/

theorem navPages_none_of_no_bilans (doc : JValue) (pos : Int)
    (h : pyIndexStr doc "bilansSaisis" = none) : navPages doc pos = none := by
  simp [navPages, h]

theorem pyIndexInt_list_oob (xs : List JValue) (pos : Int)
    (hoob : (xs.length : Int) ≤ pos ∨ pos < -(xs.length : Int)) :
    pyIndexInt (.list xs) pos = none := by
  have hcond : ¬(0 ≤ pyNormIdx pos xs.length ∧
      pyNormIdx pos xs.length < (xs.length : Int)) := by
    unfold pyNormIdx
    by_cases hp : pos < 0
    · rw [if_pos hp]; omega
    · rw [if_neg hp]; omega
  simp only [pyIndexInt]
  rw [if_neg hcond]

theorem navPages_none_of_oob (doc : JValue) (xs : List JValue) (pos : Int)
    (hb : pyIndexStr doc "bilansSaisis" = some (.list xs))
    (hoob : (xs.length : Int) ≤ pos ∨ pos < -(xs.length : Int)) :
    navPages doc pos = none := by
  simp [navPages, hb, pyIndexInt_list_oob xs pos hoob]

theorem get_capitaux_propres_of_nav_none (doc : JValue) (pos : Int)
    (bt : BilanType) (nm1 : Bool) (h : navPages doc pos = none) :
    get_capitaux_propres doc pos bt nm1 = .ok none := by
  simp [get_capitaux_propres, h]

theorem get_benefice_perte_of_nav_none (doc : JValue) (pos : Int)
    (bt : BilanType) (nm1 : Bool) (h : navPages doc pos = none) :
    get_benefice_perte doc pos bt nm1 = .ok none := by
  simp [get_benefice_perte, h]

theorem get_resultat_exercice_tbb_of_nav_none (doc : JValue) (pos : Int)
    (nm1 : Bool) (h : navPages doc pos = none) :
    get_resultat_exercice_tbb doc pos nm1 = .ok none := by
  simp [get_resultat_exercice_tbb, h]

theorem get_chiffre_affaires_of_nav_none (doc : JValue) (pos : Int)
    (bt : BilanType) (nm1 : Bool) (h : navPages doc pos = none) :
    get_chiffre_affaires doc pos bt nm1 = .ok none := by
  simp [get_chiffre_affaires, h]

theorem get_effectif_of_nav_none (doc : JValue) (pos : Int)
    (bt : BilanType) (nm1 : Bool) (h : navPages doc pos = none) :
    get_effectif doc pos bt nm1 = .ok none := by
  simp [get_effectif, h]

theorem get_capitaux_propres_no_entry (doc : JValue) (pos : Int)
    (bt : BilanType) (nm1 : Bool) (hbt : bt ≠ .TBB)
    (hmap : (if nm1 then FinancialCodeMapping.CAPITAUX_PROPRES_N_1
             else FinancialCodeMapping.CAPITAUX_PROPRES) bt = none) :
    get_capitaux_propres doc pos bt nm1 = .ok none := by
  cases hnav : navPages doc pos with
  | none => simp [get_capitaux_propres, hnav]
  | some pv => simp [get_capitaux_propres, hnav, hbt, hmap]

theorem get_benefice_perte_no_entry (doc : JValue) (pos : Int)
    (bt : BilanType) (nm1 : Bool)
    (hmap : (if nm1 then FinancialCodeMapping.BENEFICE_PERTE_N_1
             else FinancialCodeMapping.BENEFICE_PERTE) bt = none) :
    get_benefice_perte doc pos bt nm1 = .ok none := by
  cases hnav : navPages doc pos with
  | none => simp [get_benefice_perte, hnav]
  | some pv => simp [get_benefice_perte, hnav, hmap]

theorem get_chiffre_affaires_no_entry (doc : JValue) (pos : Int)
    (bt : BilanType) (nm1 : Bool) (hbt : bt ≠ .TBS)
    (hmap : (if nm1 then FinancialCodeMapping.CHIFFRE_AFFAIRES_N_1
             else FinancialCodeMapping.CHIFFRE_AFFAIRES) bt = none) :
    get_chiffre_affaires doc pos bt nm1 = .ok none := by
  cases hnav : navPages doc pos with
  | none => simp [get_chiffre_affaires, hnav]
  | some pv => simp [get_chiffre_affaires, hnav, hbt, hmap]

theorem get_effectif_no_entry (doc : JValue) (pos : Int)
    (bt : BilanType) (nm1 : Bool)
    (hmap : (if nm1 then FinancialCodeMapping.EFFECTIF_N_1
             else FinancialCodeMapping.EFFECTIF) bt = none) :
    get_effectif doc pos bt nm1 = .ok none := by
  cases hnav : navPages doc pos with
  | none => simp [get_effectif, hnav]
  | some pv => simp [get_effectif, hnav, hmap]

/-- **C6**: each metric getter returns the absent result, without an
uncaught exception, whenever the (metric, bilan type) pair has no table
entry (for the equity and turnover getters, whose types B and S dispatch
to a component sum, "no entry" means a type outside both the special
case and the direct table), whenever the document has no `bilansSaisis`
entry, and whenever the position lies outside the bounds of the
`bilansSaisis` array. -/
theorem getters_absent_on_missing_entry_or_path (doc : JValue) (pos : Int)
    (bt : BilanType) (nm1 : Bool) :
    ((bt ≠ .TBB ∧ (if nm1 then FinancialCodeMapping.CAPITAUX_PROPRES_N_1
        else FinancialCodeMapping.CAPITAUX_PROPRES) bt = none) →
      get_capitaux_propres doc pos bt nm1 = .ok none) ∧
    ((if nm1 then FinancialCodeMapping.BENEFICE_PERTE_N_1
        else FinancialCodeMapping.BENEFICE_PERTE) bt = none →
      get_benefice_perte doc pos bt nm1 = .ok none) ∧
    ((bt ≠ .TBS ∧ (if nm1 then FinancialCodeMapping.CHIFFRE_AFFAIRES_N_1
        else FinancialCodeMapping.CHIFFRE_AFFAIRES) bt = none) →
      get_chiffre_affaires doc pos bt nm1 = .ok none) ∧
    ((if nm1 then FinancialCodeMapping.EFFECTIF_N_1
        else FinancialCodeMapping.EFFECTIF) bt = none →
      get_effectif doc pos bt nm1 = .ok none) ∧
    (pyIndexStr doc "bilansSaisis" = none →
      get_capitaux_propres doc pos bt nm1 = .ok none ∧
      get_benefice_perte doc pos bt nm1 = .ok none ∧
      get_resultat_exercice_tbb doc pos nm1 = .ok none ∧
      get_chiffre_affaires doc pos bt nm1 = .ok none ∧
      get_effectif doc pos bt nm1 = .ok none) ∧
    (∀ xs : List JValue, pyIndexStr doc "bilansSaisis" = some (.list xs) →
      ((xs.length : Int) ≤ pos ∨ pos < -(xs.length : Int)) →
      get_capitaux_propres doc pos bt nm1 = .ok none ∧
      get_benefice_perte doc pos bt nm1 = .ok none ∧
      get_resultat_exercice_tbb doc pos nm1 = .ok none ∧
      get_chiffre_affaires doc pos bt nm1 = .ok none ∧
      get_effectif doc pos bt nm1 = .ok none) := by
  refine ⟨fun h => get_capitaux_propres_no_entry doc pos bt nm1 h.1 h.2,
          fun h => get_benefice_perte_no_entry doc pos bt nm1 h,
          fun h => get_chiffre_affaires_no_entry doc pos bt nm1 h.1 h.2,
          fun h => get_effectif_no_entry doc pos bt nm1 h,
          fun h => ?_, fun xs hb hoob => ?_⟩
  · have hn := navPages_none_of_no_bilans doc pos h
    exact ⟨get_capitaux_propres_of_nav_none doc pos bt nm1 hn,
           get_benefice_perte_of_nav_none doc pos bt nm1 hn,
           get_resultat_exercice_tbb_of_nav_none doc pos nm1 hn,
           get_chiffre_affaires_of_nav_none doc pos bt nm1 hn,
           get_effectif_of_nav_none doc pos bt nm1 hn⟩
  · have hn := navPages_none_of_oob doc xs pos hb hoob
    exact ⟨get_capitaux_propres_of_nav_none doc pos bt nm1 hn,
           get_benefice_perte_of_nav_none doc pos bt nm1 hn,
           get_resultat_exercice_tbb_of_nav_none doc pos nm1 hn,
           get_chiffre_affaires_of_nav_none doc pos bt nm1 hn,
           get_effectif_of_nav_none doc pos bt nm1 hn⟩

/-- Witness for C6 at concrete inputs: headcount for consolidated type
K (no table entry), a document without `bilansSaisis`, and a position
past the end of a one-filing document. -/
theorem getters_absent_on_missing_entry_or_path_witness :
    get_effectif docEquity 0 .TBK false = .ok none ∧
    get_capitaux_propres (.dict []) 0 .TBC false = .ok none ∧
    get_capitaux_propres docEquity 5 .TBC false = .ok none :=
  ⟨(getters_absent_on_missing_entry_or_path docEquity 0 .TBK false).2.2.2.1 (by decide),
   ((getters_absent_on_missing_entry_or_path (.dict []) 0 .TBC false).2.2.2.2.1 rfl).1,
   ((getters_absent_on_missing_entry_or_path docEquity 5 .TBC false).2.2.2.2.2
      (mkStatements equityLiasses) rfl (by decide)).1⟩

/-! ### Claim C7 -/

theorem scanLiasses_none_of_no_match (field code : String) :
    ∀ ls : List JValue, ls.all isDict = true → ls.any (liasseMatches code) = false →
      scanLiasses field code ls = .ok none
  | [], _, _ => rfl
  | .dict les :: ls, hd, hm => by
    simp only [List.all_cons, Bool.and_eq_true] at hd
    simp only [List.any_cons, Bool.or_eq_false_iff, liasseMatches] at hm
    have ih := scanLiasses_none_of_no_match field code ls hd.2 hm.2
    simp [scanLiasses, hm.1, ih]
  | .null :: ls, hd, _ => by simp [List.all_cons, isDict] at hd
  | .bool b :: ls, hd, _ => by simp [List.all_cons, isDict] at hd
  | .int n :: ls, hd, _ => by simp [List.all_cons, isDict] at hd
  | .str s :: ls, hd, _ => by simp [List.all_cons, isDict] at hd
  | .list xs :: ls, hd, _ => by simp [List.all_cons, isDict] at hd

theorem scanLiasses_stops_of_match (field code : String) :
    ∀ ls : List JValue, ls.all isDict = true → ls.any (liasseMatches code) = true →
      ∃ r, scanLiasses field code ls = .ok (some r)
  | [], _, hm => by simp at hm
  | .dict les :: ls, hd, hm => by
    simp only [List.all_cons, Bool.and_eq_true] at hd
    cases hc : codeMatches ((les.lookup "code").getD .null) code with
    | true => exact ⟨(les.lookup field).bind pyToInt, by simp [scanLiasses, hc]⟩
    | false =>
      have hany : ls.any (liasseMatches code) = true := by
        simp only [List.any_cons, liasseMatches, hc, Bool.false_or] at hm
        exact hm
      have ih := scanLiasses_stops_of_match field code ls hd.2 hany
      simpa [scanLiasses, hc] using ih
  | .null :: ls, hd, _ => by simp [List.all_cons, isDict] at hd
  | .bool b :: ls, hd, _ => by simp [List.all_cons, isDict] at hd
  | .int n :: ls, hd, _ => by simp [List.all_cons, isDict] at hd
  | .str s :: ls, hd, _ => by simp [List.all_cons, isDict] at hd
  | .list xs :: ls, hd, _ => by simp [List.all_cons, isDict] at hd

theorem scanPages_cons_strict_no_match (field code : String) (p : JValue)
    (ps : List JValue) (hs : strictPage p = true) (hm : pageMatches code p = false) :
    scanPages field code (p :: ps) = scanPages field code ps := by
  cases p with
  | dict es =>
    cases hiter : pyIterList ((es.lookup "liasses").getD (.list [])) with
    | none => simp [strictPage, hiter] at hs
    | some ls =>
      have hall : ls.all isDict = true := by
        simp only [strictPage, hiter] at hs; exact hs
      have hany : ls.any (liasseMatches code) = false := by
        simp only [pageMatches, pageLiasses, hiter, Option.getD_some] at hm; exact hm
      simp [scanPages, hiter, scanLiasses_none_of_no_match field code ls hall hany]
  | null => simp [strictPage] at hs
  | bool b => simp [strictPage] at hs
  | int n => simp [strictPage] at hs
  | str s => simp [strictPage] at hs
  | list xs => simp [strictPage] at hs

theorem scanPages_cons_strict_match (field code : String) (p : JValue)
    (ps : List JValue) (hs : strictPage p = true) (hm : pageMatches code p = true) :
    ∃ r, scanLiasses field code (pageLiasses p) = .ok (some r) ∧
         scanPages field code (p :: ps) = .ok (some r) := by
  cases p with
  | dict es =>
    cases hiter : pyIterList ((es.lookup "liasses").getD (.list [])) with
    | none => simp [strictPage, hiter] at hs
    | some ls =>
      have hall : ls.all isDict = true := by
        simp only [strictPage, hiter] at hs; exact hs
      have hany : ls.any (liasseMatches code) = true := by
        simp only [pageMatches, pageLiasses, hiter, Option.getD_some] at hm; exact hm
      obtain ⟨r, hr⟩ := scanLiasses_stops_of_match field code ls hall hany
      refine ⟨r, ?_, ?_⟩
      · simp only [pageLiasses, hiter, Option.getD_some]; exact hr
      · simp [scanPages, hiter, hr]
  | null => simp [strictPage] at hs
  | bool b => simp [strictPage] at hs
  | int n => simp [strictPage] at hs
  | str s => simp [strictPage] at hs
  | list xs => simp [strictPage] at hs

theorem scanPages_unique (field code : String) :
    ∀ ps : List JValue, ps.all strictPage = true →
      ps.countP (pageMatches code) = 1 →
      ∀ p ∈ ps, pageMatches code p = true →
        scanPages field code ps = scanLiasses field code (pageLiasses p)
  | [], _, _, p, hp, _ => absurd hp (List.not_mem_nil p)
  | q :: ps, hall, hcount, p, hp, hpm => by
    simp only [List.all_cons, Bool.and_eq_true] at hall
    cases hq : pageMatches code q with
    | true =>
      have hrest : ∀ a ∈ ps, pageMatches code a = false := by
        rw [List.countP_cons, hq] at hcount
        simp at hcount
        exact hcount
      rcases List.mem_cons.mp hp with h1 | h1
      · subst h1
        obtain ⟨r, hr1, hr2⟩ := scanPages_cons_strict_match field code p ps hall.1 hpm
        rw [hr2, hr1]
      · exact absurd hpm (by simp [hrest p h1])
    | false =>
      have hne : p ≠ q := fun h => by rw [h, hq] at hpm; cases hpm
      have h1 : p ∈ ps := by
        rcases List.mem_cons.mp hp with h | h
        · exact absurd h hne
        · exact h
      have hrest : ps.countP (pageMatches code) = 1 := by
        rw [List.countP_cons, hq] at hcount
        simpa using hcount
      rw [scanPages_cons_strict_no_match field code q ps hall.1 hq]
      exact scanPages_unique field code ps hall.2 hrest p h1 hpm

/-- **C7** (amended): over pages lists all of whose pages are dicts with
iterable `liasses` yielding only dicts — so that no page aborts the scan
with a caught `TypeError` or an uncaught `AttributeError` — if exactly
one page contains a liasse matching the code, `extract_from_pages` is
order-independent: every permutation yields the same result, namely the
scan of the unique matching page alone (the cell of its first matching
line at the given field). Over arbitrary pages lists order-independence
fails — see the counterexample, where a page whose `liasses` value is
not iterable silently ends the scan. -/
theorem extract_from_pages_unique_code_perm (field code : String)
    (ps1 ps2 : List JValue) (hperm : ps1.Perm ps2)
    (hwf : ps1.all strictPage = true)
    (huniq : ps1.countP (pageMatches code) = 1) :
    extract_from_pages (.list ps1) field code =
      extract_from_pages (.list ps2) field code ∧
    ∀ p ∈ ps1, pageMatches code p = true →
      extract_from_pages (.list ps1) field code =
        extract_from_pages (.list [p]) field code := by
  have hwf2 : ps2.all strictPage = true := by
    rw [List.all_eq_true] at hwf ⊢
    exact fun a ha => hwf a (hperm.mem_iff.mpr ha)
  have huniq2 : ps2.countP (pageMatches code) = 1 := by
    rw [← hperm.countP_eq]; exact huniq
  have key : ∀ l : List JValue, l.all strictPage = true →
      l.countP (pageMatches code) = 1 → ∀ q ∈ l, pageMatches code q = true →
      extract_from_pages (.list l) field code =
        extract_from_pages (.list [q]) field code := by
    intro l hla hlc q hq hqm
    have h1 := scanPages_unique field code l hla hlc q hq hqm
    have hqs : strictPage q = true := (List.all_eq_true.mp hla) q hq
    obtain ⟨r, hr1, hr2⟩ := scanPages_cons_strict_match field code q [] hqs hqm
    have hl : scanPages field code l = .ok (some r) := by rw [h1, hr1]
    simp only [extract_from_pages, pyIterList, hl, hr2]
  obtain ⟨p0, hp0, hpm0⟩ := List.countP_pos_iff.mp (by omega : 0 < ps1.countP (pageMatches code))
  constructor
  · rw [key ps1 hwf huniq p0 hp0 hpm0,
        key ps2 hwf2 huniq2 p0 (hperm.mem_iff.mp hp0) hpm0]
  · exact fun p hp hpm => key ps1 hwf huniq p hp hpm

/-- **C7** counterexample: the pages list `[pageBadLiasses, pageFJ]` has
exactly one page containing a line with code "FJ", yet swapping its two
pages changes the result of `extract_from_pages`: with the malformed
page first, the caught `TypeError` ends the call with the absent result;
with the matching page first, the call returns that page's cell 7. -/
theorem extract_from_pages_order_dependent :
    List.Perm [pageBadLiasses, pageFJ] [pageFJ, pageBadLiasses] ∧
    [pageBadLiasses, pageFJ].countP (pageMatches "FJ") = 1 ∧
    extract_from_pages (.list [pageBadLiasses, pageFJ]) "m3" "FJ" = .ok none ∧
    extract_from_pages (.list [pageFJ, pageBadLiasses]) "m3" "FJ" = .ok (some 7) :=
  ⟨List.Perm.swap pageFJ pageBadLiasses [], by decide, rfl, rfl⟩

/-- Witness for the amended C7 theorem: swapping a well-shaped
non-matching page with the unique matching page leaves the result
unchanged. -/
theorem extract_from_pages_unique_code_perm_witness :
    extract_from_pages (.list [pageOther, pageFJ]) "m3" "FJ" =
      extract_from_pages (.list [pageFJ, pageOther]) "m3" "FJ" :=
  (extract_from_pages_unique_code_perm "m3" "FJ" [pageOther, pageFJ]
    [pageFJ, pageOther] (List.Perm.swap pageFJ pageOther [])
    (by decide) (by decide)).1

/-- Witness for the amended C1 theorem at a concrete document. -/
theorem extraction_total_on_wf_input_witness :
    (∃ r, extract_from_pages (mkPages equityLiasses) "m1" "DL" = Except.ok r) ∧
    (∃ r, get_capitaux_propres docEquity 0 .TBC false = Except.ok r) ∧
    (∃ r, get_benefice_perte docEquity 0 .TBC false = Except.ok r) ∧
    (∃ r, get_resultat_exercice_tbb docEquity 0 false = Except.ok r) ∧
    (∃ r, get_chiffre_affaires docEquity 0 .TBC false = Except.ok r) ∧
    (∃ r, get_effectif docEquity 0 .TBC false = Except.ok r) :=
  extraction_total_on_wf_input (mkPages equityLiasses) docEquity 0 .TBC false "m1" "DL"
    (by decide)
    (fun pv h => by
      rw [show navPages docEquity 0 = some (mkPages equityLiasses) from rfl] at h
      injection h with h
      subst h
      decide)

/-! ### Claim C8 -/

/-- **C8** (amended): `validate_siren` succeeds exactly when the input
reduces, after stripping spaces, hyphens and periods, to 9 characters
accepted by Python's `str.isdigit` — a set that also contains non-ASCII
decimal and superscript digits — and then returns the stripped string;
every other input raises `InvalidSirenError`. The claim's "exactly 9
ASCII digits" characterization is refuted by the counterexample. -/
theorem validate_siren_spec (s : String) :
    ((∃ t, validate_siren s = .ok t) ↔
      ((stripSirenSeparators s).length = 9 ∧
       (stripSirenSeparators s).toList.all pyIsDigitChar = true)) ∧
    ∀ t, validate_siren s = .ok t → t = stripSirenSeparators s := by
  by_cases h1 : (stripSirenSeparators s).length = 9
  · cases h2 : (stripSirenSeparators s).toList.all pyIsDigitChar with
    | true =>
      have hval : validate_siren s = .ok (stripSirenSeparators s) := by
        unfold validate_siren
        rw [if_neg (fun hne => hne h1), h2]
        rfl
      refine ⟨⟨fun _ => ⟨h1, rfl⟩, fun _ => ⟨_, hval⟩⟩, fun t ht => ?_⟩
      rw [hval] at ht
      exact (Except.ok.inj ht).symm
    | false =>
      have hval : validate_siren s = .error .nonDigit := by
        unfold validate_siren
        rw [if_neg (fun hne => hne h1), h2]
        rfl
      refine ⟨⟨fun hex => ?_, fun hc => ?_⟩, fun t ht => ?_⟩
      · obtain ⟨t, ht⟩ := hex
        rw [hval] at ht
        exact Except.noConfusion ht
      · exact Bool.noConfusion hc.2
      · rw [hval] at ht
        exact Except.noConfusion ht
  · have hval : validate_siren s =
        .error (.wrongLength (stripSirenSeparators s).length) := by
      unfold validate_siren
      rw [if_pos h1]
    refine ⟨⟨fun hex => ?_, fun hc => absurd hc.1 h1⟩, fun t ht => ?_⟩
    · obtain ⟨t, ht⟩ := hex
      rw [hval] at ht
      exact Except.noConfusion ht
    · rw [hval] at ht
      exact Except.noConfusion ht

/-- **C8** counterexample: nine superscript-two characters pass
`validate_siren` — Python's `str.isdigit` accepts them — although the
string does not consist of ASCII digits, so validation succeeds on a
string not reducible to 9 ASCII digits. -/
theorem validate_siren_accepts_nonascii_digits :
    validate_siren "²²²²²²²²²" = .ok "²²²²²²²²²" ∧
    "²²²²²²²²²".toList.all asciiDigit = false :=
  ⟨rfl, rfl⟩

/-- Witness for the amended C8 theorem at a separator-laden
identifier. -/
theorem validate_siren_spec_witness :
    validate_siren "123 456-789" = Except.ok (stripSirenSeparators "123 456-789") := by
  obtain ⟨t, ht⟩ := (validate_siren_spec "123 456-789").1.mpr (by decide)
  have h2 := (validate_siren_spec "123 456-789").2 t ht
  rw [h2] at ht
  exact ht

/-! ### Claim C10 -/

theorem pyIndexInt_list_neg_one (xs : List JValue) (hne : xs ≠ []) :
    pyIndexInt (.list xs) (-1) = xs.get? (xs.length - 1) ∧
    pyIndexInt (.list xs) ((xs.length : Int) - 1) = xs.get? (xs.length - 1) := by
  have hlen : 0 < xs.length := List.length_pos.mpr hne
  constructor
  · have hnorm : pyNormIdx (-1) xs.length = -1 + xs.length := by
      simp [pyNormIdx]
    simp only [pyIndexInt, hnorm]
    rw [if_pos (by omega)]
    congr 1
    omega
  · have hnorm : pyNormIdx ((xs.length : Int) - 1) xs.length = (xs.length : Int) - 1 := by
      simp only [pyNormIdx]
      rw [if_neg (by omega)]
    simp only [pyIndexInt, hnorm]
    rw [if_pos (by omega)]
    congr 1
    omega

theorem navPages_neg_one (doc : JValue) (xs : List JValue)
    (hb : pyIndexStr doc "bilansSaisis" = some (.list xs)) (hne : xs ≠ []) :
    navPages doc (-1) = navPages doc ((xs.length : Int) - 1) := by
  obtain ⟨h1, h2⟩ := pyIndexInt_list_neg_one xs hne
  simp [navPages, hb, h1, h2]

/-- **C10**: on a document whose `bilansSaisis` value is a non-empty
array, position -1 is not an out-of-range miss: navigation resolves it,
Python-style, to the last statement of the array, so every metric
getter at position -1 agrees with the same getter at the last
non-negative position. -/
theorem getters_at_negative_one_position (doc : JValue) (xs : List JValue)
    (bt : BilanType) (nm1 : Bool)
    (hb : pyIndexStr doc "bilansSaisis" = some (.list xs)) (hne : xs ≠ []) :
    pyIndexInt (.list xs) (-1) = xs.get? (xs.length - 1) ∧
    navPages doc (-1) = navPages doc ((xs.length : Int) - 1) ∧
    get_capitaux_propres doc (-1) bt nm1 =
      get_capitaux_propres doc ((xs.length : Int) - 1) bt nm1 ∧
    get_benefice_perte doc (-1) bt nm1 =
      get_benefice_perte doc ((xs.length : Int) - 1) bt nm1 ∧
    get_resultat_exercice_tbb doc (-1) nm1 =
      get_resultat_exercice_tbb doc ((xs.length : Int) - 1) nm1 ∧
    get_chiffre_affaires doc (-1) bt nm1 =
      get_chiffre_affaires doc ((xs.length : Int) - 1) bt nm1 ∧
    get_effectif doc (-1) bt nm1 =
      get_effectif doc ((xs.length : Int) - 1) bt nm1 := by
  have hnav := navPages_neg_one doc xs hb hne
  refine ⟨(pyIndexInt_list_neg_one xs hne).1, hnav, ?_, ?_, ?_, ?_, ?_⟩
  · unfold get_capitaux_propres; rw [hnav]
  · unfold get_benefice_perte; rw [hnav]
  · unfold get_resultat_exercice_tbb; rw [hnav]
  · unfold get_chiffre_affaires; rw [hnav]
  · unfold get_effectif; rw [hnav]

/-- Witness for C10 at the one-filing document of scenario 1: the
equity getter at position -1 agrees with the one at the last
non-negative position. -/
theorem getters_at_negative_one_position_witness :
    get_capitaux_propres docEquity (-1) .TBC false =
      get_capitaux_propres docEquity
        (((mkStatements equityLiasses).length : Int) - 1) .TBC false :=
  (getters_at_negative_one_position docEquity (mkStatements equityLiasses)
    .TBC false rfl (List.cons_ne_nil _ _)).2.2.1

end Inpi
